import Mathlib

/-!
Shallow embedding of the core of `feedback_ui.py` (user-feedback-mcp):
the line classifier (`detect_log_level`), the log store mutators of
`FeedbackUI` (`_append_log`, `clear_logs`), the session-control methods
(`_run_command`, `_submit_feedback` together with the process-killing part
of `closeEvent`), the process-tree teardown (`kill_tree`, modelled over an
abstract psutil process world), and the top-level `feedback_ui` dispatch.

Python strings are modelled as Lean `String`; character-level operations
(`rstrip`, `strip`, `split('\n')`, regex word search) are implemented as
structurally recursive functions on `List Char` so that every definition
evaluates by kernel reduction.
-/

set_option autoImplicit false

/-- ASCII model of Python's default whitespace set used by `str.rstrip()`
and `str.strip()` (space, tab, newline, carriage return, vertical tab,
form feed). -/
def pySpace (c : Char) : Bool :=
  c == ' ' || c == '\t' || c == '\n' || c == '\x0d' || c == '\x0b' || c == '\x0c'

/-- Python `text.rstrip()`: drop all trailing whitespace characters. -/
def rstripStr (s : String) : String :=
  String.mk ((s.data.reverse.dropWhile pySpace).reverse)

/-- Python `text.strip()`: drop leading and trailing whitespace characters. -/
def stripStr (s : String) : String :=
  String.mk (((s.data.dropWhile pySpace).reverse.dropWhile pySpace).reverse)

/-- Python `text.split('\n')` on the character list: no collapsing of
adjacent separators, and the empty string yields `[""]`. -/
def splitNlAux : List Char → List Char → List String
  | acc, [] => [String.mk acc.reverse]
  | acc, c :: rest =>
    if c == '\n' then String.mk acc.reverse :: splitNlAux [] rest
    else splitNlAux (c :: acc) rest

/-- Python `text.split('\n')`. -/
def splitNlStr (s : String) : List String :=
  splitNlAux [] s.data

/-- Word character for Python's regex `\b` boundary (ASCII `\w`:
letters, digits, underscore). -/
def wordChar (c : Char) : Bool :=
  c.isAlphanum || c == '_'

/-- Word-character status of an optional neighbouring character;
start/end of string counts as a non-word position. -/
def optWord : Option Char → Bool
  | none => false
  | some c => wordChar c

/-- Does the regex `\bkw\b` match at the head of `s`, where `prev` is the
character immediately before `s` (none at the start of the line)?
A `\b` holds where exactly one side is a word character. -/
def matchWordHere (kw : List Char) (prev : Option Char) (s : List Char) : Bool :=
  kw.isPrefixOf s
    && (optWord prev != optWord kw.head?)
    && (optWord kw.getLast? != optWord (s.drop kw.length).head?)

/-- Scan `s` for a position where `\bkw\b` matches; `prev` is the character
before the current position. -/
def containsWordAux (kw : List Char) : Option Char → List Char → Bool
  | _, [] => false
  | prev, c :: rest =>
    matchWordHere kw prev (c :: rest) || containsWordAux kw (some c) rest

/-- Python `re.search(r'\bkw\b', line) is not None` for a single literal
keyword `kw`. -/
def containsWordStr (kw : String) (line : String) : Bool :=
  containsWordAux kw.data none line.data

/-- Python `re.search` over an alternation `\b(k1|k2|...)\b`: any keyword matches
somewhere with word boundaries. -/
def searchWords (kws : List String) (line : String) : Bool :=
  kws.any (fun kw => containsWordStr kw line)

/-- The literal alternatives of the Error regex in `detect_log_level`. -/
def errorKeywords : List String :=
  ["error", "ERROR", "Error", "failed", "FAILED", "Failed",
   "exception", "Exception", "EXCEPTION"]

/-- The literal alternatives of the Warning regex in `detect_log_level`. -/
def warningKeywords : List String :=
  ["warning", "WARNING", "Warning", "warn", "WARN", "Warn"]

/-- The literal alternatives of the Success regex in `detect_log_level`. -/
def successKeywords : List String :=
  ["success", "SUCCESS", "Success", "passed", "PASSED", "Passed",
   "completed", "COMPLETED", "Completed", "✓", "✔"]

/-- The literal alternatives of the Info regex in `detect_log_level`. -/
def infoKeywords : List String :=
  ["info", "INFO", "Info", "note", "NOTE", "Note"]

/-- Function `detect_log_level` from `feedback_ui.py`: first matching keyword group
wins, in the order Error > Warning > Success > Info, else Other. -/
def detect_log_level (line : String) : String :=
  if searchWords errorKeywords line then "Error"
  else if searchWords warningKeywords line then "Warning"
  else if searchWords successKeywords line then "Success"
  else if searchWords infoKeywords line then "Info"
  else "Other"

example : detect_log_level "an error here" = "Error" := by decide
example : detect_log_level "eRRor" = "Other" := by decide
example : detect_log_level "" = "Other" := by decide
example : rstripStr "x \n" = "x" := by decide
example : splitNlStr "a\n\nb" = ["a", "", "b"] := by decide
example : splitNlStr "" = [""] := by decide

/-- One element of `FeedbackUI.log_entries`: the tuple
`(line, level, line_number)` built in `_append_log`. -/
structure LogEntry where
  line : String
  level : String
  number : Nat
deriving DecidableEq

/-- The result dictionary built in `_submit_feedback` and `run`. The
`FeedbackResult` TypedDict annotation in the source names a field
`command_logs`, but every construction site passes the keyword `logs`, so
at runtime the dictionary keys are `logs` and `user_feedback`. -/
structure FeedbackResult where
  logs : String
  user_feedback : String
deriving DecidableEq

/-- The slice of mutable `FeedbackUI` state that the core operations read
and write: `log_buffer` (raw chunks, export source), `log_entries`
(classified, numbered lines), `process` (pid of the live child, if any)
and `feedback_result`. -/
structure UIState where
  log_buffer : List String
  log_entries : List LogEntry
  process : Option Nat
  feedback_result : Option FeedbackResult
deriving DecidableEq

/-- The freshly constructed `FeedbackUI` state (`__init__`). -/
def initState : UIState :=
  { log_buffer := [], log_entries := [], process := none, feedback_result := none }

/-- The per-line loop body of `_append_log`: each line is classified and
appended with `line_number = len(self.log_entries) + 1` computed against
the store as it grows. -/
def appendLoop : List LogEntry → List String → List LogEntry
  | entries, [] => entries
  | entries, l :: rest =>
    appendLoop (entries ++ [⟨l, detect_log_level l, entries.length + 1⟩]) rest

/-- Method `FeedbackUI._append_log(text)`: push the raw chunk onto `log_buffer`,
then split `text.rstrip()` on newlines and run the classify-and-number
loop over the resulting lines. (The rendering into the QTextEdit widget is
display-only and not modelled.) -/
def append_log (st : UIState) (text : String) : UIState :=
  { st with
    log_buffer := st.log_buffer ++ [text],
    log_entries := appendLoop st.log_entries (splitNlStr (rstripStr text)) }

/-- Method `FeedbackUI.clear_logs`: resets `log_buffer` to `[]` and clears the
display widget; it does not touch `log_entries`. -/
def clear_logs (st : UIState) : UIState :=
  { st with log_buffer := [] }

/-- The filter predicate of `_apply_log_filter` (and of the live filter in
`_append_log`): a line is skipped iff the filter is not `All` and the
line's level is neither the filter nor `Other`. -/
def filterKeep (filt : String) (e : LogEntry) : Bool :=
  !(filt != "All" && e.level != filt && e.level != "Other")

/-- Method `FeedbackUI._apply_log_filter` restricted to its observable content:
the subsequence of `log_entries` that gets rendered, in store order. -/
def apply_log_filter (filt : String) (entries : List LogEntry) : List LogEntry :=
  entries.filter (filterKeep filt)

/-- Side effects of the session-control methods that leave the modelled
state: killing a process tree, or spawning a child process. -/
inductive RunEffect where
  | killTree : Nat → RunEffect
  | spawn : String → RunEffect
deriving DecidableEq

/-- Method `FeedbackUI._run_command`, with the outcome of `subprocess.Popen`
abstracted as `spawnResult` (`Except.error e` models `Popen` raising with
message `e`, `Except.ok pid` a successful spawn). If a process is active
the method only kills its tree, nulls the handle and returns; otherwise it
clears `log_buffer`, rejects an empty command with a log message, and
otherwise logs the synthetic `$ command` line and spawns. -/
def runCommand (st : UIState) (command : String) (spawnResult : Except String Nat) :
    UIState × List RunEffect :=
  match st.process with
  | some pid => ({ st with process := none }, [RunEffect.killTree pid])
  | none =>
    let st1 : UIState := { st with log_buffer := [] }
    if command == "" then
      (append_log st1 "Please enter a command to run\n", [])
    else
      let st2 := append_log st1 ("$ " ++ command ++ "\n")
      match spawnResult with
      | Except.ok pid => ({ st2 with process := some pid }, [RunEffect.spawn command])
      | Except.error e => (append_log st2 ("Error running command: " ++ e ++ "\n"), [])

/-- Method `FeedbackUI._submit_feedback(feedbackText)` followed by the
process-cleanup part of `closeEvent` (triggered by `self.close()`):
the result is assembled first, from the stripped feedback text and the
concatenation of `log_buffer`, and only then is the process tree killed
(closeEvent kills but does not null the handle). -/
def submit_feedback (st : UIState) (feedbackText : String) : UIState × List RunEffect :=
  let fr : FeedbackResult := ⟨String.join st.log_buffer, stripStr feedbackText⟩
  let st1 : UIState := { st with feedback_result := some fr }
  match st1.process with
  | some pid => (st1, [RunEffect.killTree pid])
  | none => (st1, [])

/-- Top-level `feedback_ui(project_directory, prompt, output_file)`,
parameterised by the `FeedbackResult` that `ui.run()` produced. The second
component models file writes as `(path, ordered key-value pairs)`; the
JSON object written by `json.dump` has keys in construction order,
`logs` then `user_feedback`. Python's `if output_file and result:` treats
an empty path string as falsy, so an empty path behaves like no path. -/
def feedback_ui (result : FeedbackResult) (output_file : Option String) :
    Option FeedbackResult × List (String × List (String × String)) :=
  match output_file with
  | some path =>
    if path == "" then (some result, [])
    else (none, [(path, [("logs", result.logs), ("user_feedback", result.user_feedback)])])
  | none => (some result, [])

example : append_log initState "a\nb\n" =
    { initState with
      log_buffer := ["a\nb\n"],
      log_entries := [⟨"a", "Other", 1⟩, ⟨"b", "Other", 2⟩] } := by decide
example : (runCommand initState "" (Except.ok 1)).1.log_entries =
    [⟨"Please enter a command to run", "Other", 1⟩] := by decide

/-- An action attempted by `kill_tree` against the OS: a forceful
`proc.kill()` or a graceful `proc.terminate()`, on the given pid. -/
inductive KAct where
  | kill : Nat → KAct
  | term : Nat → KAct
deriving DecidableEq

/-- Abstract psutil world for `kill_tree`: which kill / terminate calls
raise `psutil.Error`, and which processes `is_running()` still reports
alive after the forceful-kill pass. The `psutil.Process(pid)` lookup on a
live `Popen` handle always succeeds (an exited child stays enumerable as a
zombie until reaped), so it is not a failure point of the model. -/
structure PsWorld where
  killFails : Nat → Bool
  termFails : Nat → Bool
  runningAfterKill : Nat → Bool

/-- Call `proc.kill()`: raises `psutil.Error` exactly when the world says so. -/
def psKill (w : PsWorld) (p : Nat) : Except Unit Unit :=
  if w.killFails p then Except.error () else Except.ok ()

/-- Call `proc.terminate()`: raises `psutil.Error` exactly when the world says
so. -/
def psTerm (w : PsWorld) (p : Nat) : Except Unit Unit :=
  if w.termFails p then Except.error () else Except.ok ()

/-- The first loop of `kill_tree`:
`for proc in parent.children(recursive=True): try: proc.kill();
killed.append(proc) except psutil.Error: pass`. Returns the `killed`
accumulator (only successful kills are appended) and the trace of kill
attempts, in iteration order. -/
def killChildrenLoop (w : PsWorld) : List Nat → Except Unit (List Nat × List KAct)
  | [] => Except.ok ([], [])
  | p :: rest => do
    let killedHere : List Nat ←
      match psKill w p with
      | Except.ok _ => Except.ok [p]
      | Except.error _ => Except.ok []
    let (killed, tr) ← killChildrenLoop w rest
    pure (killedHere ++ killed, KAct.kill p :: tr)

/-- The second loop of `kill_tree`:
`for proc in killed: try: if proc.is_running(): proc.terminate()
except psutil.Error: pass`. Returns the trace of terminate attempts. -/
def termLoop (w : PsWorld) : List Nat → Except Unit (List KAct)
  | [] => Except.ok []
  | p :: rest => do
    let hereActs : List KAct ←
      if w.runningAfterKill p then
        match psTerm w p with
        | Except.ok _ => Except.ok [KAct.term p]
        | Except.error _ => Except.ok [KAct.term p]
      else Except.ok []
    let tr ← termLoop w rest
    pure (hereActs ++ tr)

/-- Function `kill_tree(process)` from `feedback_ui.py`, returning the trace of OS
actions it attempted. `descendants` is the result of
`parent.children(recursive=True)` in enumeration order, `root` the pid of
the `Popen` handle. The root's own `parent.kill()` is wrapped in
`try/except psutil.Error: pass` and the root is appended to `killed`
unconditionally. An uncaught exception would surface as `Except.error`. -/
def kill_tree (w : PsWorld) (root : Nat) (descendants : List Nat) :
    Except Unit (List KAct) := do
  let (killedDesc, tr) ← killChildrenLoop w descendants
  let _ ←
    match psKill w root with
    | Except.ok _ => Except.ok ()
    | Except.error _ => Except.ok ()
  let killed := killedDesc ++ [root]
  let tr2 ← termLoop w killed
  pure (tr ++ (KAct.kill root :: tr2))

example : String.join ["hello\n"] = "hello\n" := by decide
example : stripStr " looks good " = "looks good" := by decide

/-! ### Helper lemmas -/

/-- Closed form of the `_append_log` numbering loop: the `i`-th new line
gets number `base + i + 1` where `base` is the store size before the
call. -/
def numberFrom (base : Nat) : List String → List LogEntry
  | [] => []
  | l :: rest => ⟨l, detect_log_level l, base + 1⟩ :: numberFrom (base + 1) rest

theorem appendLoop_eq (ls : List String) :
    ∀ entries : List LogEntry,
      appendLoop entries ls = entries ++ numberFrom entries.length ls := by
  induction ls with
  | nil => intro entries; simp [appendLoop, numberFrom]
  | cons l rest ih =>
    intro entries
    rw [appendLoop, ih]
    simp [numberFrom, List.append_assoc]

theorem numberFrom_map_number (ls : List String) :
    ∀ base : Nat,
      (numberFrom base ls).map LogEntry.number = List.range' (base + 1) ls.length := by
  induction ls with
  | nil => intro base; simp [numberFrom]
  | cons l rest ih =>
    intro base
    rw [numberFrom, List.length_cons, List.range'_succ, List.map_cons, ih]

theorem numberFrom_length (ls : List String) :
    ∀ base : Nat, (numberFrom base ls).length = ls.length := by
  induction ls with
  | nil => intro base; rfl
  | cons l rest ih => intro base; simp [numberFrom, ih]

/-- The contiguous-from-1 numbering invariant on a list of log entries. -/
def wellNumbered (entries : List LogEntry) : Prop :=
  entries.map LogEntry.number = List.range' 1 entries.length

theorem wellNumbered_appendLoop {entries : List LogEntry} (ls : List String)
    (h : wellNumbered entries) : wellNumbered (appendLoop entries ls) := by
  unfold wellNumbered at h ⊢
  rw [appendLoop_eq, List.map_append, List.length_append, numberFrom_length, h,
    numberFrom_map_number, Nat.add_comm entries.length 1]
  simpa [Nat.add_comm] using List.range'_append_1 1 entries.length ls.length

/-- The log-store mutators as abstract operations, for quantifying over
arbitrary call sequences. -/
inductive LogOp where
  | append : String → LogOp
  | clear : LogOp

/-- Run one mutator against the state. -/
def applyOp (st : UIState) : LogOp → UIState
  | LogOp.append t => append_log st t
  | LogOp.clear => clear_logs st

/-- Run a sequence of mutators against the state. -/
def applyOps (st : UIState) (ops : List LogOp) : UIState :=
  ops.foldl applyOp st

theorem wellNumbered_applyOps (ops : List LogOp) :
    ∀ st : UIState, wellNumbered st.log_entries →
      wellNumbered (applyOps st ops).log_entries := by
  induction ops with
  | nil => intro st h; exact h
  | cons op rest ih =>
    intro st h
    rw [applyOps, List.foldl_cons]
    apply ih
    cases op with
    | append t => exact wellNumbered_appendLoop _ h
    | clear => exact h

theorem killChildrenLoop_eq (w : PsWorld) :
    ∀ l : List Nat,
      killChildrenLoop w l =
        Except.ok (l.filter (fun p => !w.killFails p), l.map KAct.kill) := by
  intro l
  induction l with
  | nil => rfl
  | cons p rest ih =>
    cases hk : w.killFails p <;>
      simp [killChildrenLoop, psKill, hk, ih, List.filter_cons, Bind.bind, Except.bind, Pure.pure, Except.pure]

theorem termLoop_eq (w : PsWorld) :
    ∀ l : List Nat,
      termLoop w l = Except.ok ((l.filter w.runningAfterKill).map KAct.term) := by
  intro l
  induction l with
  | nil => rfl
  | cons p rest ih =>
    cases hr : w.runningAfterKill p
    · simp [termLoop, hr, ih, List.filter_cons, Bind.bind, Except.bind, Pure.pure, Except.pure]
    · cases ht : w.termFails p <;>
        simp [termLoop, psTerm, hr, ht, ih, List.filter_cons, Bind.bind, Except.bind, Pure.pure, Except.pure]

/-! ### Claim theorems -/

/-- C1, counterexample to the claim as stated: after `append("a\n")`,
`clear_logs`, `append("b\n")`, the line appended after the clear carries
sequence number 2, not 1 — `clear_logs` does not reset the counter. -/
theorem c1_counterexample :
    ¬ ((append_log (clear_logs (append_log initState "a\n")) "b\n").log_entries.getLast?.map
        LogEntry.number = some 1) ∧
      (append_log (clear_logs (append_log initState "a\n")) "b\n").log_entries.getLast?.map
        LogEntry.number = some 2 := by
  constructor
  · decide
  · decide

/-- C1, amended: over every sequence of `append_log` / `clear_logs` calls
starting from the fresh state, the sequence numbers of the stored entries
are exactly `1, 2, ..., n` (strictly increasing and contiguous from 1);
`clear_logs` empties only the raw buffer and leaves the numbering to
continue where it was, so a line appended right after a clear is numbered
`n + 1`, not 1. -/
theorem c1_sequence_numbers (ops : List LogOp) :
    (applyOps initState ops).log_entries.map LogEntry.number =
      List.range' 1 (applyOps initState ops).log_entries.length := by
  exact wellNumbered_applyOps ops initState (by rfl)

/-- C2, counterexample to the claim as stated: `start("")` on the fresh
idle state does append a line to the log store ("Please enter a command to
run"), so the store is not left unchanged. -/
theorem c2_counterexample :
    ¬ ((runCommand initState "" (Except.ok 1)).1.log_entries = initState.log_entries) ∧
      (runCommand initState "" (Except.ok 1)).1.log_entries =
        [⟨"Please enter a command to run", "Other", 1⟩] := by
  constructor
  · decide
  · decide

/-- C2, amended: with no process active, `start("")` returns synchronously
without attempting a spawn (no spawn effect, process handle stays `none`),
but it clears the raw log buffer and appends the log line
"Please enter a command to run" (level Other, next sequence number) to the
store, rather than leaving the store unchanged. -/
theorem c2_empty_command (st : UIState) (sr : Except String Nat)
    (h : st.process = none) :
    runCommand st "" sr =
      ({ st with
          log_buffer := ["Please enter a command to run\n"],
          log_entries := st.log_entries ++
            [⟨"Please enter a command to run", "Other", st.log_entries.length + 1⟩] },
        []) := by
  have hsplit : splitNlStr (rstripStr "Please enter a command to run\n") =
      ["Please enter a command to run"] := by decide
  have hlevel : detect_log_level "Please enter a command to run" = "Other" := by decide
  simp [runCommand, h, append_log, hsplit, appendLoop, hlevel]

/-- Witness for C2 at the fresh state. -/
theorem c2_witness :
    runCommand initState "" (Except.ok 1) =
      ({ initState with
          log_buffer := ["Please enter a command to run\n"],
          log_entries := initState.log_entries ++
            [⟨"Please enter a command to run", "Other", initState.log_entries.length + 1⟩] },
        []) :=
  c2_empty_command initState (Except.ok 1) rfl

/-- The chunk-splitting rule as the spec words it, for comparison with the
source behaviour (C3): trim only a single trailing newline from the whole
chunk, then split on newlines. -/
def specSplitChunk (text : String) : List String :=
  match text.data.getLast? with
  | some c => if c == '\n' then splitNlStr (String.mk text.data.dropLast) else splitNlStr text
  | none => splitNlStr text

/-- C3, counterexample to the claim as stated: on the chunk `"x \n"` the
spec's rule (trim one trailing newline, then split) yields the line
`"x "`, but `_append_log` applies `rstrip()`, which removes all trailing
whitespace, and stores the line `"x"`. -/
theorem c3_counterexample :
    specSplitChunk "x \n" = ["x "] ∧
      (append_log initState "x \n").log_entries.map LogEntry.line = ["x"] ∧
      ¬ ((append_log initState "x \n").log_entries.map LogEntry.line = ["x "]) := by
  refine ⟨by decide, by decide, by decide⟩

/-- C3, amended: `append(rawChunk)` splits the chunk on newline boundaries
after stripping ALL trailing whitespace (Python `rstrip()`) from the whole
chunk — so trailing blank lines and trailing spaces are dropped, not just
one newline — while blank lines embedded in the interior of the chunk are
preserved as empty log lines; each resulting line is classified and
appended in order with the next sequence numbers (`base + i + 1` for the
`i`-th new line on a store of size `base`). -/
theorem c3_append_splits :
    (∀ (st : UIState) (text : String),
        (append_log st text).log_entries =
          st.log_entries ++
            numberFrom st.log_entries.length (splitNlStr (rstripStr text))) ∧
      (append_log initState "a\n\nb\n").log_entries.map LogEntry.line = ["a", "", "b"] := by
  constructor
  · intro st text
    unfold append_log
    exact appendLoop_eq _ _
  · decide

/-- C4: for every store and level filter, filtering with a level other
than `"All"` keeps exactly the lines whose level equals the filter
together with every line whose level is `"Other"` (unclassifiable lines
always pass), as a `List.filter`, hence in original store order; filtering
with `"All"` keeps every line. -/
theorem c4_filter (entries : List LogEntry) (filt : String) (h : filt ≠ "All") :
    apply_log_filter filt entries =
        entries.filter (fun e => e.level == filt || e.level == "Other") ∧
      apply_log_filter "All" entries = entries := by
  constructor
  · unfold apply_log_filter
    apply List.filter_congr
    intro e _
    have hb : (filt == "All") = false := by simp [h]
    simp [filterKeep, bne, hb, Bool.not_and, Bool.not_not]
  · unfold apply_log_filter
    have hall : ∀ e : LogEntry, filterKeep "All" e = true := by
      intro e
      have hb : ("All" != "All") = false := by decide
      simp [filterKeep, hb]
    simp [hall]

/-- Witness for C4 on a store with one line of each of the levels Error,
Info, Other, Warning, filtered at Error. -/
theorem c4_witness :
    apply_log_filter "Error"
        [⟨"a", "Error", 1⟩, ⟨"b", "Info", 2⟩, ⟨"c", "Other", 3⟩, ⟨"d", "Warning", 4⟩] =
        ([⟨"a", "Error", 1⟩, ⟨"b", "Info", 2⟩, ⟨"c", "Other", 3⟩,
          ⟨"d", "Warning", 4⟩] : List LogEntry).filter
          (fun e => e.level == "Error" || e.level == "Other") ∧
      apply_log_filter "All"
        [⟨"a", "Error", 1⟩, ⟨"b", "Info", 2⟩, ⟨"c", "Other", 3⟩, ⟨"d", "Warning", 4⟩] =
        [⟨"a", "Error", 1⟩, ⟨"b", "Info", 2⟩, ⟨"c", "Other", 3⟩, ⟨"d", "Warning", 4⟩] :=
  c4_filter [⟨"a", "Error", 1⟩, ⟨"b", "Info", 2⟩, ⟨"c", "Other", 3⟩, ⟨"d", "Warning", 4⟩]
    "Error" (by decide)

/-- C5: for every psutil world (any combination of kill/terminate failures
and post-kill liveness) `kill_tree` returns normally (`Except.ok`: every
individual `psutil.Error` is swallowed, so it never fails the caller —
in particular it is a no-op-like safe call when every process is already
gone), and its attempted actions are exactly: a forceful kill of each
recursively enumerated descendant in order, then a forceful kill of the
root, then a graceful terminate of each process of the killed list
(successfully killed descendants plus the root) that is still running
after the kill pass. -/
theorem c5_kill_tree (w : PsWorld) (root : Nat) (descendants : List Nat) :
    kill_tree w root descendants =
      Except.ok (descendants.map KAct.kill ++
        KAct.kill root ::
          ((descendants.filter (fun p => !w.killFails p) ++ [root]).filter
            w.runningAfterKill).map KAct.term) := by
  cases hk : w.killFails root <;>
    simp [kill_tree, killChildrenLoop_eq, termLoop_eq, psKill, hk,
      Bind.bind, Except.bind, Pure.pure, Except.pure]

/-- C6, counterexample to the claim as stated: the keyword `error`
written as `eRRor` is not matched by any of the literal casings in the
source regex, so the line is classified Other, not Error — classification
is not case-insensitive. -/
theorem c6_counterexample :
    ¬ (detect_log_level "eRRor" = "Error") ∧ detect_log_level "eRRor" = "Other" := by
  refine ⟨by decide, by decide⟩

/-- C6, amended: for every raw line containing one of the nine literal
variants of the Error keywords — `error`/`ERROR`/`Error`,
`failed`/`FAILED`/`Failed`, `exception`/`Exception`/`EXCEPTION` — as a
whole word, `detect_log_level` returns Error; only these three casings
(all-lower, all-upper, capitalised) are recognised, not arbitrary case. -/
theorem c6_error_keywords (line kw : String) (hk : kw ∈ errorKeywords)
    (hc : containsWordStr kw line = true) :
    detect_log_level line = "Error" := by
  have hs : searchWords errorKeywords line = true :=
    List.any_eq_true.mpr ⟨kw, hk, hc⟩
  simp [detect_log_level, hs]

/-- Witness for C6 at the line "an Error occurred". -/
theorem c6_witness :
    "Error" ∈ errorKeywords ∧
      containsWordStr "Error" "an Error occurred" = true ∧
      detect_log_level "an Error occurred" = "Error" :=
  ⟨by decide, by decide,
    c6_error_keywords "an Error occurred" "Error" (by decide) (by decide)⟩

/-- C7: invoking `_run_command` while a process is active kills the
existing process tree, spawns nothing, and nulls the handle; the log
store, buffer and everything else are left untouched, whatever the
requested command and whatever a spawn would have produced. -/
theorem c7_toggle (st : UIState) (command : String) (sr : Except String Nat)
    (pid : Nat) (h : st.process = some pid) :
    runCommand st command sr = ({ st with process := none }, [RunEffect.killTree pid]) := by
  simp [runCommand, h]

/-- Witness for C7: a running state with pid 5. -/
theorem c7_witness :
    runCommand { initState with process := some 5 } "ls" (Except.ok 9) =
      ({ { initState with process := some 5 } with process := none },
        [RunEffect.killTree 5]) :=
  c7_toggle { initState with process := some 5 } "ls" (Except.ok 9) 5 rfl

/-- C8, counterexample to the claim as stated: submitting the feedback
text `" looks good "` produces `user_feedback = "looks good"` — the text
is stripped of surrounding whitespace, so the result does not equal the
submitted text verbatim. -/
theorem c8_counterexample :
    (submit_feedback ⟨["hello\n"], [], some 7, none⟩ " looks good ").1.feedback_result =
        some ⟨"hello\n", "looks good"⟩ ∧
      ¬ ((submit_feedback ⟨["hello\n"], [], some 7, none⟩ " looks good ").1.feedback_result =
        some ⟨"hello\n", " looks good "⟩) := by
  refine ⟨by decide, by decide⟩

/-- C8, amended: `submit(feedbackText)` while a process is running first
assembles the `FeedbackResult` — `logs` is the concatenation of the raw
log buffer (`exportText()`, i.e. all chunks received up to the moment of
submission) and `user_feedback` is `feedbackText` stripped of leading and
trailing whitespace — and then ends the session by closing the window,
which kills the running process tree; termination follows assembly, so
only output received before submission is captured. -/
theorem c8_submit (st : UIState) (ft : String) (pid : Nat)
    (h : st.process = some pid) :
    submit_feedback st ft =
      ({ st with feedback_result := some ⟨String.join st.log_buffer, stripStr ft⟩ },
        [RunEffect.killTree pid]) := by
  simp [submit_feedback, h]

/-- Witness for C8: a running state with pid 7 and one buffered chunk. -/
theorem c8_witness :
    submit_feedback ⟨["hello\n"], [], some 7, none⟩ " ok " =
      ({ (⟨["hello\n"], [], some 7, none⟩ : UIState) with
          feedback_result :=
            some ⟨String.join (⟨["hello\n"], [], some 7, none⟩ : UIState).log_buffer,
              stripStr " ok "⟩ },
        [RunEffect.killTree 7]) :=
  c8_submit ⟨["hello\n"], [], some 7, none⟩ " ok " 7 rfl

/-- C9: at top level, with a (non-empty) output path the result is written
to that path as a JSON object whose keys, in order, are `"logs"` (the
captured logs) and `"user_feedback"` (the feedback text), and nothing is
returned to the caller; with no output path the result is returned
directly and nothing is written. -/
theorem c9_output (result : FeedbackResult) (path : String) (h : path ≠ "") :
    feedback_ui result (some path) =
        (none, [(path, [("logs", result.logs), ("user_feedback", result.user_feedback)])]) ∧
      feedback_ui result none = (some result, []) := by
  constructor
  · have hb : (path == "") = false := by simp [h]
    simp [feedback_ui, hb]
  · rfl

/-- Witness for C9 at the result {logs := "L", user_feedback := "F"} and
the path "out.json". -/
theorem c9_witness :
    feedback_ui ⟨"L", "F"⟩ (some "out.json") =
        (none, [("out.json", [("logs", "L"), ("user_feedback", "F")])]) ∧
      feedback_ui ⟨"L", "F"⟩ none = (some (⟨"L", "F"⟩ : FeedbackResult), []) :=
  c9_output ⟨"L", "F"⟩ "out.json" (by decide)

/-- C10: appending a chunk that `rstrip()`s to the empty string (empty, or
only whitespace and newlines) still appends exactly one log line: raw text
`""`, level `"Other"`, and the next sequence number; the raw chunk itself
still lands in the export buffer. -/
theorem c10_whitespace_chunk (st : UIState) (text : String)
    (h : rstripStr text = "") :
    append_log st text =
      { st with
          log_buffer := st.log_buffer ++ [text],
          log_entries := st.log_entries ++ [⟨"", "Other", st.log_entries.length + 1⟩] } := by
  have h1 : splitNlStr "" = [""] := by decide
  have h2 : detect_log_level "" = "Other" := by decide
  unfold append_log
  rw [h, h1]
  simp [appendLoop, h2]

/-- Witness for C10 at the chunk consisting of a space and two newlines. -/
theorem c10_witness :
    append_log initState " \n\n" =
      { initState with
          log_buffer := initState.log_buffer ++ [" \n\n"],
          log_entries := initState.log_entries ++
            [⟨"", "Other", initState.log_entries.length + 1⟩] } :=
  c10_whitespace_chunk initState " \n\n" (by decide)
